import Mathlib

/-!
Verification development for the metadata-extraction and storage-consistency
core of the ai-media-gallery repository.  The JavaScript source is embedded
shallowly: byte buffers are `List Nat`, JavaScript signed 32-bit arithmetic is
made explicit, fallible collaborators (server upload, database insert, HTTP
delete, canvas thumbnail generation) are modeled as explicit outcome
parameters, and the unbounded `while` loop of the PNG chunk parser takes
explicit fuel so that non-termination is observable as `none`.
-/

set_option maxHeartbeats 1000000
set_option maxRecDepth 20000

namespace AIMediaGallery

/-! ### JavaScript primitive semantics -/

/-- Signed 32-bit reinterpretation of a natural number, as produced by the
JavaScript bitwise operators `<<` and `|`: the operand is reduced mod 2^32 and
values at or above 2^31 wrap around to negatives. -/
def toInt32 (n : Nat) : Int :=
  if n % 4294967296 < 2147483648 then ((n % 4294967296 : Nat) : Int)
  else ((n % 4294967296 : Nat) : Int) - 4294967296

/-- Reading `uint8Array[i]`: an out-of-range or negative index yields
`undefined`, which the bitwise arithmetic of the chunk parser coerces to 0. -/
def byteAt (arr : List Nat) (i : Int) : Nat :=
  if i < 0 then 0 else arr.getD i.toNat 0

/-- JavaScript `Uint8Array.prototype.slice(s, e)`: a negative endpoint counts from the
end of the array and both endpoints are clamped to the array bounds, so the
call never reads out of bounds and never throws. -/
def jsSlice (arr : List Nat) (s e : Int) : List Nat :=
  let n : Int := (arr.length : Int)
  let s' : Nat := (if s < 0 then max (n + s) 0 else min s n).toNat
  let e' : Nat := (if e < 0 then max (n + e) 0 else min e n).toNat
  (arr.drop s').take (e' - s')

/-- JavaScript `a || b` for strings: the empty string is falsy. -/
def jsOrStr (a d : String) : String := if a = "" then d else a

/-- JavaScript `a || b` where `a` may be `null`/`undefined` (modeled `none`)
or a string. -/
def jsOrOptStr (a : Option String) (d : String) : String :=
  match a with
  | some s => jsOrStr s d
  | none => d

/-- The ASCII whitespace characters removed by `String.prototype.trim`
(the characters relevant to the data handled by this code base). -/
def jsIsSpace (c : Char) : Bool :=
  c = ' ' || c = '\t' || c = '\n' || c = '\r' || c = '\x0b' || c = '\x0c'

/-- JavaScript `String.prototype.trim`: strip leading and trailing whitespace. -/
def jsTrim (s : String) : String :=
  String.mk (((s.data.dropWhile jsIsSpace).reverse.dropWhile jsIsSpace).reverse)

/-! ### ChunkParser: `extractPNGTextChunks` (src/js/mediaProcessor.js)

Keys and values of the chunk map are kept as their raw byte sequences; the
JavaScript code decodes them with `TextDecoder` before storing, which does not
affect which chunk ends up under which key.  Assigning a property on a plain
JavaScript object overwrites the value of an existing key in place and appends
a new key at the end. -/

abbrev ChunkMap := List (List Nat × List Nat)

/-- Property assignment `chunks[keyword] = text` on a JavaScript object. -/
def setKey (m : ChunkMap) (k v : List Nat) : ChunkMap :=
  if m.any (fun p => p.1 = k) then
    m.map (fun p => if p.1 = k then (k, v) else p)
  else m ++ [(k, v)]

/-- Property lookup on the chunk map. -/
def lookupKey (m : ChunkMap) (k : List Nat) : Option (List Nat) :=
  (m.find? (fun p => p.1 = k)).map (fun p => p.2)

def tEXtType : List Nat := [0x74, 0x45, 0x58, 0x74]
def iTXtType : List Nat := [0x69, 0x54, 0x58, 0x74]
def zTXtType : List Nat := [0x7A, 0x54, 0x58, 0x74]

/-- The `while (offset < uint8Array.length - 8)` loop of
`extractPNGTextChunks`.  The loop has no built-in bound, so the model takes
explicit fuel; `none` means the loop did not finish within `fuel` iterations.
The chunk length is four big-endian bytes combined with `<<`/`|`, which work
on signed 32-bit integers, and the offset advances by `8 + length + 4`. -/
def chunkLoop (arr : List Nat) : Nat → Int → ChunkMap → Option ChunkMap
  | 0, _, _ => none
  | fuel + 1, offset, chunks =>
    if offset < (arr.length : Int) - 8 then
      let len : Int := toInt32 (byteAt arr offset * 16777216 +
        byteAt arr (offset + 1) * 65536 + byteAt arr (offset + 2) * 256 +
        byteAt arr (offset + 3))
      let ty : List Nat := [byteAt arr (offset + 4), byteAt arr (offset + 5),
        byteAt arr (offset + 6), byteAt arr (offset + 7)]
      let chunks' :=
        if ty = tEXtType ∨ ty = iTXtType ∨ ty = zTXtType then
          if ty = tEXtType then
            let chunkData := jsSlice arr (offset + 8) (offset + 8 + len)
            if 0 ∈ chunkData then
              let nullIndex := chunkData.indexOf 0
              setKey chunks (chunkData.take nullIndex) (chunkData.drop (nullIndex + 1))
            else chunks
          else chunks
        else chunks
      chunkLoop arr fuel (offset + 8 + len + 4) chunks'
    else some chunks

/-- Model of `extractPNGTextChunks`: check the first four PNG signature bytes, then run
the chunk loop from offset 8. -/
def extractPNGTextChunks (fuel : Nat) (arr : List Nat) : Option ChunkMap :=
  if arr.getD 0 0 = 0x89 ∧ arr.getD 1 0 = 0x50 ∧ arr.getD 2 0 = 0x4E ∧ arr.getD 3 0 = 0x47 then
    chunkLoop arr fuel 8 []
  else some []

/-- A 17-byte buffer: the PNG signature followed by a chunk header whose
big-endian length field is `FF FF FF F4` (signed 32-bit value −12) and whose
type is `IDAT`, plus one trailing byte.  On this input the parser's offset
increment is `8 + (−12) + 4 = 0`. -/
def loopingBuffer : List Nat :=
  [0x89, 0x50, 0x4E, 0x47, 0x0D, 0x0A, 0x1A, 0x0A,
   0xFF, 0xFF, 0xFF, 0xF4, 0x49, 0x44, 0x41, 0x54, 0x00]

theorem chunkLoop_loopingBuffer_stuck :
    ∀ fuel, chunkLoop loopingBuffer fuel 8 [] = none := by
  intro fuel
  induction fuel with
  | zero => rfl
  | succ n ih =>
    have hstep : chunkLoop loopingBuffer (n + 1) 8 [] = chunkLoop loopingBuffer n 8 [] := rfl
    rw [hstep, ih]

/-- Claim C4 (refuted; the code loops): on the concrete malformed buffer
`loopingBuffer` the chunk parser never terminates, for any amount of fuel,
because the declared chunk length `FF FF FF F4` is read through signed 32-bit
arithmetic as −12 and the offset increment `8 + length + 4` is 0.  The spec
requires the parser to terminate and return a map on every input. -/
theorem extractPNGTextChunks_nonterminating_on_loopingBuffer :
    ∀ fuel, extractPNGTextChunks fuel loopingBuffer = none := by
  intro fuel
  have h := chunkLoop_loopingBuffer_stuck fuel
  simpa [extractPNGTextChunks] using h

/-! ### Well-formed tEXt chunk serialization (for the round-trip property) -/

def pngSignature : List Nat := [0x89, 0x50, 0x4E, 0x47, 0x0D, 0x0A, 0x1A, 0x0A]

/-- Big-endian 4-byte encoding of a chunk length. -/
def be32 (n : Nat) : List Nat :=
  [n / 16777216 % 256, n / 65536 % 256, n / 256 % 256, n % 256]

/-- A well-formed `tEXt` chunk for a keyword/value pair: 4-byte big-endian
length, the ASCII type `tEXt`, `keyword`, a NUL separator, `text`, and a CRC
field (arbitrary; the parser skips it without checking). -/
def serTEXtChunk (kw v : List Nat) : List Nat :=
  be32 (kw.length + 1 + v.length) ++ tEXtType ++ kw ++ 0 :: v ++ [0, 0, 0, 0]

/-- A byte buffer made of the PNG signature followed by one well-formed
`tEXt` chunk per keyword/value pair. -/
def buildPNG (pairs : List (List Nat × List Nat)) : List Nat :=
  pngSignature ++ (pairs.map (fun p => serTEXtChunk p.1 p.2)).flatten

theorem toInt32_of_lt {n : Nat} (h : n < 2147483648) : toInt32 n = (n : Int) := by
  unfold toInt32
  rw [Nat.mod_eq_of_lt (by omega)]
  simp [h]

theorem be32_recombine {n : Nat} (h : n < 4294967296) :
    n / 16777216 % 256 * 16777216 + n / 65536 % 256 * 65536 +
      n / 256 % 256 * 256 + n % 256 = n := by
  omega

theorem byteAt_natCast (l : List Nat) (j : Nat) : byteAt l (j : Int) = l.getD j 0 := by
  unfold byteAt
  rw [if_neg (by omega)]
  simp

theorem serTEXt_length (kw v : List Nat) :
    (serTEXtChunk kw v).length = kw.length + 1 + v.length + 12 := by
  simp [serTEXtChunk, be32, tEXtType]
  omega

theorem jsSlice_append_exact (pre data post : List Nat) :
    jsSlice (pre ++ (data ++ post)) ((pre.length : Nat) : Int)
      (((pre.length + data.length : Nat) : Int)) = data := by
  have hlen : ((pre ++ (data ++ post)).length : Int)
      = (pre.length : Int) + data.length + post.length := by
    push_cast [List.length_append]
    ring
  simp only [jsSlice]
  rw [if_neg (by omega), if_neg (by omega)]
  have h1 : min ((pre.length : Nat) : Int) ((pre ++ (data ++ post)).length : Int)
      = ((pre.length : Nat) : Int) := by
    rw [hlen]; omega
  have h2 : min (((pre.length + data.length : Nat) : Int)) ((pre ++ (data ++ post)).length : Int)
      = ((pre.length + data.length : Nat) : Int) := by
    rw [hlen]; push_cast; omega
  rw [h1, h2, Int.toNat_natCast, Int.toNat_natCast]
  rw [show pre.length + data.length - pre.length = data.length by omega]
  rw [List.drop_left, List.take_left]

theorem indexOf_append_zero (kw v : List Nat) (h : 0 ∉ kw) :
    (kw ++ 0 :: v).indexOf 0 = kw.length := by
  induction kw with
  | nil => simp [List.indexOf_cons_self]
  | cons a kws ih =>
    have ha : (a == 0) = false := by
      have : a ≠ 0 := by intro h0; exact h (by simp [h0])
      simpa using this
    have hm : 0 ∉ kws := fun hc => h (List.mem_cons_of_mem _ hc)
    simp [List.indexOf_cons, ha, ih hm]

/-- JavaScript-style "first of two options" (used only to state lookup
characterizations). -/
def orElseO {α : Type} (a b : Option α) : Option α :=
  match a with
  | some x => some x
  | none => b

theorem orElseO_none_right {α : Type} (a : Option α) : orElseO a none = a := by
  cases a <;> rfl

theorem orElseO_some_absorb {α : Type} (a : Option α) (x : α) (b : Option α) :
    orElseO (orElseO a (some x)) b = orElseO a (some x) := by
  cases a <;> rfl

theorem getLast?_cons {α : Type} (a : α) (l : List α) :
    (a :: l).getLast? = orElseO l.getLast? (some a) := by
  induction l generalizing a with
  | nil => rfl
  | cons b l ih =>
    rw [List.getLast?_cons_cons, ih b]
    cases h : l.getLast? <;> simp [orElseO, List.getLast?_cons_cons, ih, h]

theorem find?_map_update_eq (m : ChunkMap) (k' : List Nat) (v : List Nat)
    (h : ∃ p ∈ m, p.1 = k') :
    (m.map (fun p => if p.1 = k' then (k', v) else p)).find?
      (fun p => p.1 = k') = some (k', v) := by
  induction m with
  | nil => simp at h
  | cons q m ih =>
    by_cases hq : q.1 = k'
    · rw [List.map_cons, if_pos hq, List.find?_cons_of_pos _ (by simp)]
    · obtain ⟨p, hp, hpk⟩ := h
      rcases List.mem_cons.mp hp with h1 | h1
      · exact absurd (h1 ▸ hpk) hq
      · rw [List.map_cons, if_neg hq, List.find?_cons_of_neg _ (by simpa using hq)]
        exact ih ⟨p, h1, hpk⟩

theorem find?_map_update_ne (m : ChunkMap) (k k' : List Nat) (v : List Nat)
    (hk : k ≠ k') :
    (m.map (fun p => if p.1 = k' then (k', v) else p)).find?
      (fun p => p.1 = k) = m.find? (fun p => p.1 = k) := by
  induction m with
  | nil => simp
  | cons q m ih =>
    rw [List.map_cons]
    by_cases hq : q.1 = k'
    · have hqk : ¬ q.1 = k := fun hc => hk ((hc.symm.trans hq))
      rw [if_pos hq, List.find?_cons_of_neg _ (by simpa using fun hc => hk hc.symm),
        List.find?_cons_of_neg _ (by simpa using hqk)]
      exact ih
    · rw [if_neg hq]
      by_cases hqk : q.1 = k
      · rw [List.find?_cons_of_pos _ (by simpa using hqk),
          List.find?_cons_of_pos _ (by simpa using hqk)]
      · rw [List.find?_cons_of_neg _ (by simpa using hqk),
          List.find?_cons_of_neg _ (by simpa using hqk)]
        exact ih

theorem lookupKey_setKey (m : ChunkMap) (k k' v : List Nat) :
    lookupKey (setKey m k' v) k = if k = k' then some v else lookupKey m k := by
  unfold setKey lookupKey
  by_cases hany : m.any (fun p => p.1 = k') = true
  · rw [if_pos (by simpa using hany)]
    have hex : ∃ p ∈ m, p.1 = k' := by
      simpa [List.any_eq_true] using hany
    by_cases hk : k = k'
    · subst hk
      rw [find?_map_update_eq m k v hex]
      simp
    · rw [find?_map_update_ne m k k' v hk]
      simp [hk]
  · rw [if_neg (by simpa using hany)]
    have hnone : m.find? (fun p => p.1 = k') = none := by
      rw [List.find?_eq_none]
      intro p hp
      simp only [List.any_eq_true] at hany
      intro hc
      exact hany ⟨p, hp, by simpa using hc⟩
    rw [List.find?_append]
    by_cases hk : k = k'
    · subst hk
      rw [hnone]
      simp
    · have h1 : ([(k', v)].find? (fun p => p.1 = k)) = none := by
        rw [List.find?_cons_of_neg _ (by simpa using fun hc => hk hc.symm)]
        rfl
      rw [h1, Option.or_none]
      simp [hk]

theorem lookupKey_foldl (pairs : List (List Nat × List Nat)) (acc : ChunkMap)
    (k : List Nat) :
    lookupKey (pairs.foldl (fun m p => setKey m p.1 p.2) acc) k
      = orElseO (((pairs.filter (fun p => p.1 = k)).map (fun p => p.2)).getLast?)
          (lookupKey acc k) := by
  induction pairs generalizing acc with
  | nil => simp [orElseO]
  | cons p ps ih =>
    rw [List.foldl_cons, ih (setKey acc p.1 p.2), lookupKey_setKey]
    by_cases hk : k = p.1
    · subst hk
      rw [if_pos rfl, List.filter_cons_of_pos (by simp), List.map_cons, getLast?_cons,
        orElseO_some_absorb]
    · rw [if_neg hk, List.filter_cons_of_neg (by simpa using fun hc => hk hc.symm)]

theorem chunkLoop_cons_step (pre kw v rest : List Nat) (acc : ChunkMap) (fuel : Nat)
    (hkw : 0 ∉ kw) (hlen : kw.length + 1 + v.length < 2147483648) :
    chunkLoop (pre ++ (serTEXtChunk kw v ++ rest)) (fuel + 1) ((pre.length : Nat) : Int) acc
      = chunkLoop (pre ++ (serTEXtChunk kw v ++ rest)) fuel
          (((pre ++ serTEXtChunk kw v).length : Nat) : Int) (setKey acc kw v) := by
  have hshift : ∀ j : Nat,
      byteAt (pre ++ (serTEXtChunk kw v ++ rest)) ((pre.length : Int) + (j : Int))
        = (serTEXtChunk kw v ++ rest).getD j 0 := by
    intro j
    rw [show ((pre.length : Int) + (j : Int)) = ((pre.length + j : Nat) : Int) by push_cast; ring]
    rw [byteAt_natCast, List.getD_append_right _ _ _ _ (by omega)]
    rw [show pre.length + j - pre.length = j by omega]
  have e0 : byteAt (pre ++ (serTEXtChunk kw v ++ rest)) ((pre.length : Nat) : Int)
      = (kw.length + 1 + v.length) / 16777216 % 256 := by simpa using hshift 0
  have e1 : byteAt (pre ++ (serTEXtChunk kw v ++ rest)) (((pre.length : Nat) : Int) + 1)
      = (kw.length + 1 + v.length) / 65536 % 256 := by simpa using hshift 1
  have e2 : byteAt (pre ++ (serTEXtChunk kw v ++ rest)) (((pre.length : Nat) : Int) + 2)
      = (kw.length + 1 + v.length) / 256 % 256 := by simpa using hshift 2
  have e3 : byteAt (pre ++ (serTEXtChunk kw v ++ rest)) (((pre.length : Nat) : Int) + 3)
      = (kw.length + 1 + v.length) % 256 := by simpa using hshift 3
  have e4 : byteAt (pre ++ (serTEXtChunk kw v ++ rest)) (((pre.length : Nat) : Int) + 4)
      = 0x74 := by simpa using hshift 4
  have e5 : byteAt (pre ++ (serTEXtChunk kw v ++ rest)) (((pre.length : Nat) : Int) + 5)
      = 0x45 := by simpa using hshift 5
  have e6 : byteAt (pre ++ (serTEXtChunk kw v ++ rest)) (((pre.length : Nat) : Int) + 6)
      = 0x58 := by simpa using hshift 6
  have e7 : byteAt (pre ++ (serTEXtChunk kw v ++ rest)) (((pre.length : Nat) : Int) + 7)
      = 0x74 := by
    have h := hshift 7
    simp only [Nat.cast_ofNat] at h
    rw [h]
    rfl
  have elen : toInt32 ((kw.length + 1 + v.length) / 16777216 % 256 * 16777216 +
      (kw.length + 1 + v.length) / 65536 % 256 * 65536 +
      (kw.length + 1 + v.length) / 256 % 256 * 256 + (kw.length + 1 + v.length) % 256)
      = ((kw.length + 1 + v.length : Nat) : Int) := by
    rw [be32_recombine (by omega), toInt32_of_lt hlen]
  have eslice : jsSlice (pre ++ (serTEXtChunk kw v ++ rest))
      (((pre.length : Nat) : Int) + 8)
      (((pre.length : Nat) : Int) + 8 + ((kw.length + 1 + v.length : Nat) : Int))
      = kw ++ 0 :: v := by
    have h := jsSlice_append_exact (pre ++ be32 (kw.length + 1 + v.length) ++ tEXtType)
      (kw ++ 0 :: v) ([0, 0, 0, 0] ++ rest)
    have harr : (pre ++ be32 (kw.length + 1 + v.length) ++ tEXtType) ++
        ((kw ++ 0 :: v) ++ ([0, 0, 0, 0] ++ rest)) = pre ++ (serTEXtChunk kw v ++ rest) := by
      simp [serTEXtChunk, List.append_assoc]
    have h1 : (((pre ++ be32 (kw.length + 1 + v.length) ++ tEXtType).length : Nat) : Int)
        = ((pre.length : Nat) : Int) + 8 := by
      simp [be32, tEXtType]
    have h2 : ((((pre ++ be32 (kw.length + 1 + v.length) ++ tEXtType).length
          + (kw ++ 0 :: v).length : Nat)) : Int)
        = ((pre.length : Nat) : Int) + 8 + ((kw.length + 1 + v.length : Nat) : Int) := by
      simp [be32, tEXtType]
      omega
    rw [harr, h1, h2] at h
    exact h
  have emem : (0 : Nat) ∈ kw ++ 0 :: v := by simp
  have eidx : (kw ++ 0 :: v).indexOf 0 = kw.length := indexOf_append_zero kw v hkw
  have etake : (kw ++ 0 :: v).take kw.length = kw := List.take_left kw (0 :: v)
  have edrop : (kw ++ 0 :: v).drop (kw.length + 1) = v := by
    rw [show kw ++ 0 :: v = (kw ++ [0]) ++ v by simp]
    rw [show kw.length + 1 = (kw ++ [0]).length by simp]
    exact List.drop_left _ _
  have hcond : ((pre.length : Nat) : Int)
      < ((pre ++ (serTEXtChunk kw v ++ rest)).length : Int) - 8 := by
    simp [serTEXtChunk, be32, tEXtType]
    omega
  have eoff : ((pre.length : Nat) : Int) + 8 + ((kw.length + 1 + v.length : Nat) : Int) + 4
      = (((pre ++ serTEXtChunk kw v).length : Nat) : Int) := by
    simp [serTEXt_length]
    omega
  simp only [chunkLoop]
  rw [if_pos hcond]
  simp only [e0, e1, e2, e3, e4, e5, e6, e7]
  rw [elen, eslice, if_pos (by decide : ([0x74, 0x45, 0x58, 0x74] : List Nat) = tEXtType ∨
    ([0x74, 0x45, 0x58, 0x74] : List Nat) = iTXtType ∨
    ([0x74, 0x45, 0x58, 0x74] : List Nat) = zTXtType),
    if_pos (by decide : ([0x74, 0x45, 0x58, 0x74] : List Nat) = tEXtType),
    if_pos emem, eidx, etake, edrop, eoff]

theorem chunkLoop_build (pairs : List (List Nat × List Nat)) :
    ∀ (pre : List Nat) (acc : ChunkMap),
      (∀ p ∈ pairs, 0 ∉ p.1 ∧ p.1.length + 1 + p.2.length < 2147483648) →
      chunkLoop (pre ++ (pairs.map (fun p => serTEXtChunk p.1 p.2)).flatten)
          (pairs.length + 1) ((pre.length : Nat) : Int) acc
        = some (pairs.foldl (fun m p => setKey m p.1 p.2) acc) := by
  induction pairs with
  | nil =>
    intro pre acc _
    simp only [List.map_nil, List.flatten_nil, List.append_nil, List.foldl_nil,
      List.length_nil, Nat.zero_add]
    simp only [chunkLoop]
    rw [if_neg (by omega)]
  | cons p ps ih =>
    intro pre acc hwf
    obtain ⟨hkw, hlen⟩ := hwf p (List.mem_cons_self _ _)
    have hrec : ∀ q ∈ ps, 0 ∉ q.1 ∧ q.1.length + 1 + q.2.length < 2147483648 :=
      fun q hq => hwf q (List.mem_cons_of_mem _ hq)
    rw [List.map_cons, List.flatten_cons,
      show (p :: ps).length + 1 = (ps.length + 1) + 1 by simp,
      chunkLoop_cons_step pre p.1 p.2 _ acc (ps.length + 1) hkw hlen]
    have h := ih (pre ++ serTEXtChunk p.1 p.2) (setKey acc p.1 p.2) hrec
    rw [List.append_assoc] at h
    rw [h, List.foldl_cons]

/-- Claim C5: for a byte buffer built as the PNG signature followed by
well-formed `tEXt` chunks with known keyword/value pairs, the parser returns a
map containing exactly those keywords mapped to those values, the value of the
last occurrence winning when a keyword repeats.  Keywords and values are
represented by their byte sequences; a well-formed pair has byte values below
256, no NUL byte in the keyword, and a chunk length below 2^31. -/
theorem extractPNGTextChunks_roundTrip (pairs : List (List Nat × List Nat))
    (hwf : ∀ p ∈ pairs, (∀ b ∈ p.1, b < 256) ∧ (∀ b ∈ p.2, b < 256) ∧
      0 ∉ p.1 ∧ p.1.length + 1 + p.2.length < 2147483648) :
    ∃ m, extractPNGTextChunks (pairs.length + 1) (buildPNG pairs) = some m ∧
      ∀ k, lookupKey m k
        = ((pairs.filter (fun p => p.1 = k)).map (fun p => p.2)).getLast? := by
  refine ⟨pairs.foldl (fun m p => setKey m p.1 p.2) [], ?_, ?_⟩
  · unfold extractPNGTextChunks buildPNG
    have hsig : (pngSignature ++ (pairs.map (fun p => serTEXtChunk p.1 p.2)).flatten).getD 0 0 = 0x89 ∧
        (pngSignature ++ (pairs.map (fun p => serTEXtChunk p.1 p.2)).flatten).getD 1 0 = 0x50 ∧
        (pngSignature ++ (pairs.map (fun p => serTEXtChunk p.1 p.2)).flatten).getD 2 0 = 0x4E ∧
        (pngSignature ++ (pairs.map (fun p => serTEXtChunk p.1 p.2)).flatten).getD 3 0 = 0x47 := by
      refine ⟨?_, ?_, ?_, ?_⟩ <;>
        · rw [List.getD_append _ _ _ _ (by simp [pngSignature])]
          rfl
    rw [if_pos hsig]
    have h8 : (8 : Int) = ((pngSignature.length : Nat) : Int) := rfl
    rw [h8]
    exact chunkLoop_build pairs pngSignature []
      (fun p hp => ⟨(hwf p hp).2.2.1, (hwf p hp).2.2.2⟩)
  · intro k
    rw [lookupKey_foldl]
    have hnil : lookupKey [] k = none := rfl
    rw [hnil, orElseO_none_right]

def c5Pairs : List (List Nat × List Nat) :=
  [([0x6B], [0x61]), ([0x6B], [0x62]), ([0x77], [0x7A])]

theorem extractPNGTextChunks_roundTrip_witness :
    (∀ p ∈ c5Pairs, (∀ b ∈ p.1, b < 256) ∧ (∀ b ∈ p.2, b < 256) ∧
      0 ∉ p.1 ∧ p.1.length + 1 + p.2.length < 2147483648) ∧
    ∃ m, extractPNGTextChunks (c5Pairs.length + 1) (buildPNG c5Pairs) = some m ∧
      ∀ k, lookupKey m k
        = ((c5Pairs.filter (fun p => p.1 = k)).map (fun p => p.2)).getLast? :=
  ⟨by decide, extractPNGTextChunks_roundTrip c5Pairs (by decide)⟩

/-! ### IngestCoordinator: `processFile` (src/js/mediaProcessor.js)

The asynchronous collaborators of `processFile` — the `/upload` POST, the
`FileReader`, `createSmallThumbnail` (which never rejects), the database
`images.add`, and the rollback DELETE — are modeled by explicit outcome
fields of `IngestEnv`.  The blob store is the list of relative paths present
on disk and the metadata store is the list of inserted records. -/

structure AIInfo where
  title : String
  prompt : String
  model : String
  tags : String
  notes : String
deriving DecidableEq

structure MediaRecord where
  id : Nat := 0
  title : String := ""
  prompt : String := ""
  model : String := ""
  tags : String := ""
  notes : String := ""
  dateAdded : String := ""
  imageData : String := ""
  serverPath : Option String := none
  mediaType : String := "image"
  thumbnailData : String := ""
  thumbnailPositionX : Int := 50
  thumbnailPositionY : Int := 25
deriving DecidableEq

/-- The JSON object answered by the server's `/upload` route on success; on
success the server has written the uploaded bytes under `relativePath`. -/
structure UploadResult where
  relativePath : String
deriving DecidableEq

inductive ServerUploadInfo where
  | ok (r : UploadResult)
  | failed (errorMsg : String)
deriving DecidableEq

/-- The object `processFile` resolves with (`success: true` is implicit). -/
structure IngestSuccess where
  imageId : Nat
  record : MediaRecord
  serverUpload : ServerUploadInfo
deriving DecidableEq

/-- Blob store (relative paths on disk) and metadata store (inserted rows). -/
structure Stores where
  blobFiles : List String
  dbRecords : List MediaRecord
deriving DecidableEq

structure IngestEnv where
  fileTitle : String
  isVideo : Bool
  aiInfo : AIInfo
  dateAdded : String
  mediaData : String
  readOk : Bool
  smallThumbnail : String
  videoThumbnail : Option String
  upload : Except String UploadResult
  dbAdd : MediaRecord → Except String Nat
  deleteOk : Bool

/-- Model of `deleteServerFile`: throws when the path is falsy, throws when
the path does not split into `folder/date/filename`, and otherwise issues the
DELETE request, which fails with 404 when the file is absent.  Returns whether
the deletion succeeded together with the resulting blob-store contents. -/
def deleteServerFile (deleteOk : Bool) (blobFiles : List String)
    (relativePath : String) : Bool × List String :=
  if relativePath = "" then (false, blobFiles)
  else if (relativePath.splitOn "/").length ≠ 3 then (false, blobFiles)
  else if deleteOk ∧ relativePath ∈ blobFiles then (true, blobFiles.erase relativePath)
  else (false, blobFiles)

/-- The `newMedia` object built on the server-upload success path
(`processFile` lines 67-80): full `imageData` is not stored, `serverPath`
comes from the upload result (`|| null`), and the thumbnail is the small
generated one. -/
def buildServerRecord (env : IngestEnv) (r : UploadResult) : MediaRecord :=
  { id := 0
    title := jsOrStr env.aiInfo.title env.fileTitle
    prompt := jsOrStr env.aiInfo.prompt ""
    model := jsOrStr env.aiInfo.model ""
    tags := jsOrStr env.aiInfo.tags ""
    notes := jsOrStr env.aiInfo.notes ""
    dateAdded := env.dateAdded
    imageData := ""
    serverPath := if r.relativePath = "" then none else some r.relativePath
    mediaType := if env.isVideo then "video" else "image"
    thumbnailData := env.smallThumbnail
    thumbnailPositionX := 50
    thumbnailPositionY := 25 }

/-- The `newMedia` object built on the fallback path (`processFile` lines
135-148): the full payload is stored inline and `serverPath` is null. -/
def buildFallbackRecord (env : IngestEnv) : MediaRecord :=
  { id := 0
    title := jsOrStr env.aiInfo.title env.fileTitle
    prompt := jsOrStr env.aiInfo.prompt ""
    model := jsOrStr env.aiInfo.model ""
    tags := jsOrStr env.aiInfo.tags ""
    notes := jsOrStr env.aiInfo.notes ""
    dateAdded := env.dateAdded
    imageData := env.mediaData
    serverPath := none
    mediaType := if env.isVideo then "video" else "image"
    thumbnailData := jsOrOptStr env.videoThumbnail env.mediaData
    thumbnailPositionX := 50
    thumbnailPositionY := 25 }

/-- Model of `processFile` after metadata extraction: upload to the server,
then insert into the database, rolling the server file back when the insert
(or the file read) fails; on upload failure fall back to inline storage. -/
def processFile (env : IngestEnv) (st : Stores) : Except String IngestSuccess × Stores :=
  match env.upload with
  | .ok serverUploadResult =>
    let st1 : Stores := { st with blobFiles := st.blobFiles ++ [serverUploadResult.relativePath] }
    if env.readOk then
      let newMedia := buildServerRecord env serverUploadResult
      match env.dbAdd newMedia with
      | .ok mediaId =>
        (.ok { imageId := mediaId, record := newMedia, serverUpload := .ok serverUploadResult },
         { st1 with dbRecords := st1.dbRecords ++ [newMedia] })
      | .error dbError =>
        let rollback := deleteServerFile env.deleteOk st1.blobFiles serverUploadResult.relativePath
        (.error ("Database operation failed: " ++ dbError ++ ". Server file has been cleaned up."),
         { st1 with blobFiles := rollback.2 })
    else
      let rollback := deleteServerFile env.deleteOk st1.blobFiles serverUploadResult.relativePath
      (.error "Failed to read file", { st1 with blobFiles := rollback.2 })
  | .error serverError =>
    if env.readOk then
      let newMedia := buildFallbackRecord env
      match env.dbAdd newMedia with
      | .ok mediaId =>
        (.ok { imageId := mediaId, record := newMedia, serverUpload := .failed serverError },
         { st with dbRecords := st.dbRecords ++ [newMedia] })
      | .error e => (.error e, st)
    else (.error "Failed to read file", st)

/-! ### ReconciliationEngine: orphan scan, missing scan, integrity score
(orphanFileManager.js) -/

/-- Normalization `'/' + record.serverPath.replace(/\\/g, '/')`: the web-path normalization
applied to a record's `serverPath` before comparison.  A global single-char
regex replace is a character-wise map. -/
def webPath (serverPath : String) : String :=
  "/" ++ String.mk (serverPath.data.map (fun c => if c = '\\' then '/' else c))

structure OrphanScan where
  totalServerFiles : Nat
  totalDbRecords : Nat
  orphanFiles : List String
  orphanCount : Nat
deriving DecidableEq

/-- Model of `scanForOrphanFiles`: server files are the web paths listed by
`/api/images` (each of the form `/<folder>/<date>/<file>`); a record
contributes its normalized `serverPath` when that path is truthy; orphans are
the server files not contributed by any record. -/
def scanForOrphanFiles (serverFiles : List String) (dbRecords : List MediaRecord) :
    OrphanScan :=
  let dbServerPaths := dbRecords.filterMap (fun record =>
    match record.serverPath with
    | some sp => if sp = "" then none else some (webPath sp)
    | none => none)
  let orphanFiles := serverFiles.filter (fun f => !(dbServerPaths.contains f))
  { totalServerFiles := serverFiles.length
    totalDbRecords := dbRecords.length
    orphanFiles := orphanFiles
    orphanCount := orphanFiles.length }

structure MissingFile where
  recordId : Nat
  serverPath : String
deriving DecidableEq

/-- Model of `scanForMissingFiles`: for every record with a truthy
`serverPath`, a HEAD existence check runs against the normalized web path;
a non-success response (or a check failure) marks the record as missing. -/
def scanForMissingFiles (fileExists : String → Bool) (dbRecords : List MediaRecord) :
    List MissingFile :=
  dbRecords.filterMap (fun record =>
    match record.serverPath with
    | some sp =>
      if sp = "" then none
      else if fileExists (webPath sp) then none
      else some { recordId := record.id, serverPath := webPath sp }
    | none => none)

/-- JavaScript `Math.max`. -/
def jsMaxNat (a b : Nat) : Nat := if a ≤ b then b else a

/-- JavaScript `Math.max` on integers. -/
def jsMaxInt (a b : Int) : Int := if a ≤ b then b else a

/-- JavaScript `Math.round`: round half up, which is `⌊q + 1/2⌋`. -/
def jsRound (q : ℚ) : Int := Rat.floor (q + 1 / 2)

theorem jsRound_eq_floor (q : ℚ) : jsRound q = ⌊q + 1 / 2⌋ := by
  rw [jsRound, Rat.floor_def', ← Rat.floor_def]

/-- Model of `calculateIntegrityScore` (orphanFileManager.js). -/
def calculateIntegrityScore (orphanScan : OrphanScan) (missingScan : List MissingFile) :
    Int :=
  let totalFiles := orphanScan.totalServerFiles
  let totalRecords := orphanScan.totalDbRecords
  let issues := orphanScan.orphanCount + missingScan.length
  let totalItems := jsMaxNat totalFiles totalRecords
  if totalItems = 0 then 100
  else jsMaxInt 0 (jsRound (((totalItems : ℚ) - (issues : ℚ)) / (totalItems : ℚ) * 100))

/-- The integrity-score formula exactly as the specification words it:
`max(0, round(((totalItems - issues) / totalItems) * 100))` with
`totalItems = max(serverFileCount, dbRecordCount)` and
`issues = orphanCount + missingCount`, and 100 when `totalItems = 0`. -/
def integrityScoreSpec (serverFileCount dbRecordCount orphanCount missingCount : Nat) :
    Int :=
  let totalItems := jsMaxNat serverFileCount dbRecordCount
  let issues := orphanCount + missingCount
  if totalItems = 0 then 100
  else jsMaxInt 0 (jsRound (((totalItems : ℚ) - (issues : ℚ)) / (totalItems : ℚ) * 100))

theorem slash_append_injective : Function.Injective (fun s : String => "/" ++ s) := by
  intro a b h
  have hd : ("/" ++ a).data = ("/" ++ b).data := congrArg String.data h
  rw [String.data_append, String.data_append] at hd
  exact String.ext (List.append_cancel_left hd)

/-- A freshly written blob path that no record references shows up in the
orphan scan exactly once. -/
theorem orphan_count_of_fresh (blobFiles : List String) (records : List MediaRecord)
    (p : String) (hfresh : p ∉ blobFiles)
    (hnoref : ∀ rec ∈ records, ∀ sp, rec.serverPath = some sp →
      webPath sp ≠ "/" ++ p) :
    ((scanForOrphanFiles ((blobFiles ++ [p]).map (fun q => "/" ++ q))
        records).orphanFiles.count ("/" ++ p)) = 1 := by
  unfold scanForOrphanFiles
  have hnotmem : ("/" ++ p) ∉ records.filterMap (fun record =>
      match record.serverPath with
      | some sp => if sp = "" then none else some (webPath sp)
      | none => none) := by
    intro hmem
    obtain ⟨rec, hrec, heq⟩ := List.mem_filterMap.mp hmem
    cases hsp : rec.serverPath with
    | none =>
      simp only [hsp] at heq
      exact Option.noConfusion heq
    | some sp =>
      simp only [hsp] at heq
      by_cases hsp0 : sp = ""
      · rw [if_pos hsp0] at heq; exact Option.noConfusion heq
      · rw [if_neg hsp0] at heq
        exact hnoref rec hrec sp hsp (Option.some.inj heq)
  have hcontains : ((records.filterMap (fun record =>
      match record.serverPath with
      | some sp => if sp = "" then none else some (webPath sp)
      | none => none)).contains ("/" ++ p)) = false := by
    simpa using hnotmem
  rw [List.count_filter (by rw [hcontains]; rfl)]
  have hmapcount : (((blobFiles ++ [p]).map (fun q => "/" ++ q)).count ("/" ++ p))
      = (blobFiles ++ [p]).count p :=
    List.count_map_of_injective _ _ slash_append_injective _
  rw [hmapcount, List.count_append, List.count_eq_zero.mpr hfresh]
  simp

/-- Claim C1: when the server upload succeeds and the subsequent database
insert fails, `processFile` runs the compensating server-file delete and
rejects with the database error; a failure of the delete itself is only
logged and does not replace the surfaced error.  No metadata record is
inserted, and afterwards either the blob store is back to its previous state
(zero remaining files for this ingest) or the just-written path remains and
is detectable by the orphan scan as exactly one orphan. -/
theorem processFile_dbFailure_compensation (env : IngestEnv) (st : Stores)
    (r : UploadResult) (dbError : String)
    (hup : env.upload = .ok r)
    (hread : env.readOk = true)
    (hdb : env.dbAdd (buildServerRecord env r) = .error dbError)
    (hfresh : r.relativePath ∉ st.blobFiles)
    (hnoref : ∀ rec ∈ st.dbRecords, ∀ sp, rec.serverPath = some sp →
      webPath sp ≠ "/" ++ r.relativePath) :
    (processFile env st).1
        = .error ("Database operation failed: " ++ dbError ++ ". Server file has been cleaned up.") ∧
    (processFile env st).2.dbRecords = st.dbRecords ∧
    ((processFile env st).2.blobFiles = st.blobFiles ∨
      ((processFile env st).2.blobFiles = st.blobFiles ++ [r.relativePath] ∧
        ((scanForOrphanFiles ((processFile env st).2.blobFiles.map (fun q => "/" ++ q))
            (processFile env st).2.dbRecords).orphanFiles.count
          ("/" ++ r.relativePath)) = 1)) := by
  have hpf : processFile env st
      = (.error ("Database operation failed: " ++ dbError ++ ". Server file has been cleaned up."),
         { blobFiles := (deleteServerFile env.deleteOk (st.blobFiles ++ [r.relativePath])
             r.relativePath).2,
           dbRecords := st.dbRecords }) := by
    simp only [processFile, hup, hread, hdb, if_true]
  rw [hpf]
  refine ⟨rfl, rfl, ?_⟩
  unfold deleteServerFile
  by_cases h0 : r.relativePath = ""
  · rw [if_pos h0]
    exact Or.inr ⟨rfl, orphan_count_of_fresh st.blobFiles st.dbRecords _ hfresh hnoref⟩
  · rw [if_neg h0]
    by_cases h3 : (r.relativePath.splitOn "/").length ≠ 3
    · rw [if_pos h3]
      exact Or.inr ⟨rfl, orphan_count_of_fresh st.blobFiles st.dbRecords _ hfresh hnoref⟩
    · rw [if_neg h3]
      by_cases hdel : env.deleteOk ∧ r.relativePath ∈ st.blobFiles ++ [r.relativePath]
      · rw [if_pos hdel]
        left
        show (st.blobFiles ++ [r.relativePath]).erase r.relativePath = st.blobFiles
        rw [List.erase_append_right _ hfresh]
        simp [List.erase_cons_head]
      · rw [if_neg hdel]
        exact Or.inr ⟨rfl, orphan_count_of_fresh st.blobFiles st.dbRecords _ hfresh hnoref⟩

def c1Env : IngestEnv :=
  { fileTitle := "sunset"
    isVideo := false
    aiInfo := { title := "", prompt := "", model := "", tags := "", notes := "" }
    dateAdded := "2025-07-23T00:00:00.000Z"
    mediaData := "data:image/png;base64,AAAA"
    readOk := true
    smallThumbnail := "data:image/jpeg;base64,BBBB"
    videoThumbnail := none
    upload := .ok { relativePath := "images/2025-07-23/1_sunset.png" }
    dbAdd := fun _ => .error "SQLITE_FULL"
    deleteOk := false }

def c1Stores : Stores := { blobFiles := [], dbRecords := [] }

theorem processFile_dbFailure_compensation_witness :
    (processFile c1Env c1Stores).1
        = .error ("Database operation failed: " ++ "SQLITE_FULL" ++ ". Server file has been cleaned up.") ∧
    (processFile c1Env c1Stores).2.dbRecords = c1Stores.dbRecords ∧
    ((processFile c1Env c1Stores).2.blobFiles = c1Stores.blobFiles ∨
      ((processFile c1Env c1Stores).2.blobFiles
          = c1Stores.blobFiles ++ ["images/2025-07-23/1_sunset.png"] ∧
        ((scanForOrphanFiles ((processFile c1Env c1Stores).2.blobFiles.map (fun q => "/" ++ q))
            (processFile c1Env c1Stores).2.dbRecords).orphanFiles.count
          ("/" ++ "images/2025-07-23/1_sunset.png")) = 1)) :=
  processFile_dbFailure_compensation c1Env c1Stores
    { relativePath := "images/2025-07-23/1_sunset.png" } "SQLITE_FULL"
    rfl rfl rfl (by decide) (fun rec hrec => absurd hrec (List.not_mem_nil _))

/-- Claim C2: every record a successful `processFile` resolves with has at
most one durable copy of the media bytes — on the server-upload success path
`serverPath` is set and `imageData` is the empty string, and on the fallback
path `serverPath` is null and `imageData` holds the full inline payload;
no success return has both set or neither set.  The hypotheses record the
server contract (a successful `/upload` always answers a non-empty
`relativePath`) and the `FileReader` contract (`readAsDataURL` never produces
an empty string). -/
theorem processFile_oneDurableCopy (env : IngestEnv) (st : Stores) (res : IngestSuccess)
    (hpath : ∀ r, env.upload = .ok r → r.relativePath ≠ "")
    (hdata : env.mediaData ≠ "")
    (hres : (processFile env st).1 = .ok res) :
    (∃ p, res.record.serverPath = some p ∧ p ≠ "" ∧ res.record.imageData = "") ∨
    (res.record.serverPath = none ∧ res.record.imageData = env.mediaData ∧
      res.record.imageData ≠ "") := by
  cases hup : env.upload with
  | ok r =>
    cases hread : env.readOk with
    | false => simp [processFile, hup, hread] at hres
    | true =>
      cases hdbv : env.dbAdd (buildServerRecord env r) with
      | ok mediaId =>
        simp only [processFile, hup, hread, hdbv, if_true] at hres
        have hr : res = IngestSuccess.mk mediaId (buildServerRecord env r)
            (.ok r) := (Except.ok.inj hres).symm
        left
        rw [hr]
        exact ⟨r.relativePath, by simp [buildServerRecord, hpath r hup], hpath r hup, rfl⟩
      | error e => simp [processFile, hup, hread, hdbv] at hres
  | error serverError =>
    cases hread : env.readOk with
    | false => simp [processFile, hup, hread] at hres
    | true =>
      cases hdbv : env.dbAdd (buildFallbackRecord env) with
      | ok mediaId =>
        simp only [processFile, hup, hread, hdbv, if_true] at hres
        have hr : res = IngestSuccess.mk mediaId (buildFallbackRecord env)
            (.failed serverError) := (Except.ok.inj hres).symm
        right
        rw [hr]
        exact ⟨rfl, rfl, hdata⟩
      | error e => simp [processFile, hup, hread, hdbv] at hres

def c2Upload : UploadResult := { relativePath := "images/2025-07-23/2_cat.png" }

def c2Env : IngestEnv :=
  { fileTitle := "cat"
    isVideo := false
    aiInfo := { title := "", prompt := "", model := "", tags := "", notes := "" }
    dateAdded := "2025-07-23T00:00:00.000Z"
    mediaData := "data:image/png;base64,CCCC"
    readOk := true
    smallThumbnail := "data:image/jpeg;base64,DDDD"
    videoThumbnail := none
    upload := .ok c2Upload
    dbAdd := fun _ => .ok 5
    deleteOk := true }

def c2Res : IngestSuccess :=
  { imageId := 5, record := buildServerRecord c2Env c2Upload, serverUpload := .ok c2Upload }

theorem processFile_oneDurableCopy_witness :
    (∃ p, c2Res.record.serverPath = some p ∧ p ≠ "" ∧ c2Res.record.imageData = "") ∨
    (c2Res.record.serverPath = none ∧ c2Res.record.imageData = c2Env.mediaData ∧
      c2Res.record.imageData ≠ "") :=
  processFile_oneDurableCopy c2Env { blobFiles := [], dbRecords := [] } c2Res
    (fun r h => by cases h; decide) (by decide) rfl

/-- Claim C3: when the server upload fails (and the metadata insert itself
succeeds), `processFile` still resolves successfully with a record whose
`serverPath` is null and whose `imageData` is the full original payload,
and the result carries `serverUpload.success = false` with the upload error —
the flag that no server-side blob backup exists. -/
theorem processFile_uploadFailure_fallback (env : IngestEnv) (st : Stores)
    (serverError : String) (mediaId : Nat)
    (hup : env.upload = .error serverError)
    (hread : env.readOk = true)
    (hdb : env.dbAdd (buildFallbackRecord env) = .ok mediaId) :
    (processFile env st).1
        = .ok { imageId := mediaId, record := buildFallbackRecord env,
                serverUpload := .failed serverError } ∧
    (buildFallbackRecord env).serverPath = none ∧
    (buildFallbackRecord env).imageData = env.mediaData := by
  refine ⟨?_, rfl, rfl⟩
  simp only [processFile, hup, hread, hdb, if_true]

def c3Env : IngestEnv :=
  { fileTitle := "dog"
    isVideo := false
    aiInfo := { title := "", prompt := "", model := "", tags := "", notes := "" }
    dateAdded := "2025-07-23T00:00:00.000Z"
    mediaData := "data:image/png;base64,EEEE"
    readOk := true
    smallThumbnail := ""
    videoThumbnail := none
    upload := .error "ECONNREFUSED"
    dbAdd := fun _ => .ok 9
    deleteOk := true }

theorem processFile_uploadFailure_fallback_witness :
    (processFile c3Env { blobFiles := [], dbRecords := [] }).1
        = .ok { imageId := 9, record := buildFallbackRecord c3Env,
                serverUpload := .failed "ECONNREFUSED" } ∧
    (buildFallbackRecord c3Env).serverPath = none ∧
    (buildFallbackRecord c3Env).imageData = c3Env.mediaData :=
  processFile_uploadFailure_fallback c3Env { blobFiles := [], dbRecords := [] }
    "ECONNREFUSED" 9 rfl rfl rfl

def c6ServerFiles : List String :=
  ["/images/2025-07-23/a.png", "/images/2025-07-23/b.png", "/images/2025-07-23/c.png",
   "/images/2025-07-23/d.png", "/images/2025-07-23/e.png"]

def c6Records : List MediaRecord :=
  [{ id := 1, serverPath := some "images/2025-07-23/a.png" },
   { id := 2, serverPath := some "images/2025-07-23/b.png" },
   { id := 3, serverPath := none }]

/-- Claim C6: the integrity score equals
`max(0, round(((totalItems - issues) / totalItems) * 100))` with
`totalItems = max(serverFileCount, dbRecordCount)` and
`issues = orphanCount + missingCount`, and equals 100 when `totalItems` is 0;
on a fixture of 5 blob paths and 3 records whose `serverPath` matches exactly
2 of them (the third referencing no blob), the orphan scan returns exactly
the 3 unmatched paths and the score is `round(((5 - 3) / 5) * 100) = 40`. -/
theorem calculateIntegrityScore_formula_and_fixture :
    (∀ (o : OrphanScan) (m : List MissingFile),
      calculateIntegrityScore o m
        = integrityScoreSpec o.totalServerFiles o.totalDbRecords o.orphanCount m.length) ∧
    integrityScoreSpec 0 0 0 0 = 100 ∧
    (scanForOrphanFiles c6ServerFiles c6Records).orphanFiles
        = ["/images/2025-07-23/c.png", "/images/2025-07-23/d.png",
           "/images/2025-07-23/e.png"] ∧
    scanForMissingFiles (fun f => c6ServerFiles.contains f) c6Records = [] ∧
    calculateIntegrityScore (scanForOrphanFiles c6ServerFiles c6Records)
        (scanForMissingFiles (fun f => c6ServerFiles.contains f) c6Records) = 40 ∧
    jsRound (((5 : ℚ) - 3) / 5 * 100) = 40 := by
  have hscan : scanForOrphanFiles c6ServerFiles c6Records
      = { totalServerFiles := 5, totalDbRecords := 3,
          orphanFiles := ["/images/2025-07-23/c.png", "/images/2025-07-23/d.png",
            "/images/2025-07-23/e.png"],
          orphanCount := 3 } := by decide
  have hmiss : scanForMissingFiles (fun f => c6ServerFiles.contains f) c6Records = [] := by
    decide
  have hscore : calculateIntegrityScore (scanForOrphanFiles c6ServerFiles c6Records)
      (scanForMissingFiles (fun f => c6ServerFiles.contains f) c6Records) = 40 := by
    rw [hscan, hmiss]
    unfold calculateIntegrityScore
    norm_num [jsMaxNat, jsMaxInt, jsRound_eq_floor]
  have hround : jsRound (((5 : ℚ) - 3) / 5 * 100) = 40 := by
    rw [jsRound_eq_floor]
    norm_num
  exact ⟨fun o m => rfl, rfl, by rw [hscan], hmiss, hscore, hround⟩

/-! ### StorageReclaimer: `cleanupDatabaseStorage` (src/js/databaseCleanup.js)

The canvas thumbnail generation and the per-record `updateMedia` call are the
two fallible collaborators, modeled by `CleanupEnv`.  The loop iterates over
a snapshot of all records and updates each record by its (unique, primary
key) id, so it acts on each record independently; it is modeled as a
pointwise map with summed counters. -/

structure CleanupEnv where
  thumbGen : String → Option String
  updateOk : Nat → Bool

/-- Model of `createSmallThumbnailFromData`: the promise never rejects — on
canvas success it resolves the generated thumbnail data URL, and on image
load failure (or exception) it resolves the original `imageData`. -/
def createSmallThumbnailFromData (thumbGen : String → Option String)
    (imageData : String) : String :=
  match thumbGen imageData with
  | some thumbnailDataUrl => thumbnailDataUrl
  | none => imageData

/-- The candidate test of the cleanup loop:
`item.serverPath && item.serverPath.trim() !== '' && item.imageData &&
item.imageData.length > 1000`. -/
def isReclaimCandidate (item : MediaRecord) : Bool :=
  match item.serverPath with
  | some sp => sp != "" && jsTrim sp != "" && item.imageData != ""
      && decide (item.imageData.length > 1000)
  | none => false

/-- One iteration of the cleanup loop for one record: candidates get
`imageData` cleared and `thumbnailData` kept or regenerated, and are counted
as cleaned when the update succeeds; an update failure is caught, counted as
an error, and leaves the record unchanged; non-candidates are untouched.
Returns the record together with the increments of `cleanedCount`,
`errorCount` and `spaceSavedBytes`. -/
def cleanupProcessItem (env : CleanupEnv) (item : MediaRecord) :
    MediaRecord × Nat × Nat × Nat :=
  if isReclaimCandidate item then
    let originalSize := item.imageData.length
    let thumbnailData :=
      if item.thumbnailData = "" ∨ item.thumbnailData = item.imageData then
        createSmallThumbnailFromData env.thumbGen item.imageData
      else item.thumbnailData
    if env.updateOk item.id then
      ({ item with imageData := "", thumbnailData := thumbnailData }, 1, 0, originalSize)
    else (item, 0, 1, 0)
  else (item, 0, 0, 0)

structure CleanupResult where
  records : List MediaRecord
  cleanedCount : Nat
  errorCount : Nat
  spaceSavedBytes : Nat
deriving DecidableEq

/-- Model of `cleanupDatabaseStorage`. -/
def cleanupDatabaseStorage (env : CleanupEnv) (allMedia : List MediaRecord) :
    CleanupResult :=
  { records := allMedia.map (fun item => (cleanupProcessItem env item).1)
    cleanedCount := (allMedia.map (fun item => (cleanupProcessItem env item).2.1)).sum
    errorCount := (allMedia.map (fun item => (cleanupProcessItem env item).2.2.1)).sum
    spaceSavedBytes := (allMedia.map (fun item => (cleanupProcessItem env item).2.2.2)).sum }

def bigImageData : String := String.mk (List.replicate 1001 'a')

def c7Record : MediaRecord :=
  { id := 1, title := "t", imageData := bigImageData,
    serverPath := some "images/2025-07-23/a.png", thumbnailData := "" }

def c7Env : CleanupEnv := { thumbGen := fun _ => none, updateOk := fun _ => true }

/-- Claim C7 counterexample: for a candidate record whose thumbnail
generation fails (`thumbGen` returns `none`, the `img.onerror` path), the
cleanup pass does NOT retain the record's `imageData` untouched and does NOT
count the record as an error: it clears `imageData`, stores the original
`imageData` as the thumbnail, and counts the record as cleaned. -/
theorem cleanupDatabaseStorage_thumbnailFailure_counterexample :
    (cleanupDatabaseStorage c7Env [c7Record]).records ≠ [c7Record] ∧
    (cleanupDatabaseStorage c7Env [c7Record]).records
        = [{ c7Record with imageData := "", thumbnailData := c7Record.imageData }] ∧
    (cleanupDatabaseStorage c7Env [c7Record]).cleanedCount = 1 ∧
    (cleanupDatabaseStorage c7Env [c7Record]).errorCount = 0 := by
  refine ⟨by decide, by decide, by decide, by decide⟩

theorem isReclaimCandidate_imageData_ne (item : MediaRecord)
    (h : isReclaimCandidate item = true) : item.imageData ≠ "" := by
  unfold isReclaimCandidate at h
  cases hsp : item.serverPath with
  | none => rw [hsp] at h; exact Bool.noConfusion h
  | some sp =>
    rw [hsp] at h
    simp only [Bool.and_eq_true, bne_iff_ne, decide_eq_true_eq] at h
    exact h.1.2

/-- Claim C7 amended: when thumbnail generation fails for a reclaim candidate
whose stored thumbnail is absent or identical to its `imageData`, the cleanup
pass clears `imageData`, falls back to storing the full original `imageData`
as `thumbnailData` (so the record never ends with neither `imageData` nor
non-empty thumbnail bytes), and counts the record as cleaned — not as an
error; `errorCount` only grows when the store update itself fails. -/
theorem cleanupProcessItem_thumbnailFailure (env : CleanupEnv) (item : MediaRecord)
    (hc : isReclaimCandidate item = true)
    (hg : env.thumbGen item.imageData = none)
    (hu : env.updateOk item.id = true)
    (ht : item.thumbnailData = "" ∨ item.thumbnailData = item.imageData) :
    cleanupProcessItem env item
        = ({ item with imageData := "", thumbnailData := item.imageData }, 1, 0,
           item.imageData.length) ∧
    item.imageData ≠ "" := by
  refine ⟨?_, isReclaimCandidate_imageData_ne item hc⟩
  simp only [cleanupProcessItem, hc, if_true, if_pos ht, createSmallThumbnailFromData,
    hg, hu]

def c7wRecord : MediaRecord :=
  { id := 4, title := "w", imageData := bigImageData,
    serverPath := some "images/2025-07-23/b.png", thumbnailData := "" }

theorem cleanupProcessItem_thumbnailFailure_witness :
    cleanupProcessItem c7Env c7wRecord
        = ({ c7wRecord with imageData := "", thumbnailData := c7wRecord.imageData }, 1, 0,
           c7wRecord.imageData.length) ∧
    c7wRecord.imageData ≠ "" :=
  cleanupProcessItem_thumbnailFailure c7Env c7wRecord (by decide) rfl rfl (Or.inl rfl)

def c8Record : MediaRecord :=
  { id := 2, title := "ws", imageData := bigImageData, serverPath := some " " }

/-- Claim C8 counterexample: a record whose `serverPath` is the non-empty
whitespace string `" "` and whose `imageData` exceeds 1000 characters is NOT
a reclaim candidate, because the code additionally requires
`serverPath.trim()` to be non-empty; so "candidate iff serverPath non-empty
and imageData length > 1000" fails as stated. -/
theorem isReclaimCandidate_whitespacePath_counterexample :
    isReclaimCandidate c8Record = false ∧
    c8Record.serverPath = some " " ∧ (" " : String) ≠ "" ∧
    c8Record.imageData.length > 1000 := by
  refine ⟨by decide, rfl, by decide, by decide⟩

theorem cleanupProcessItem_not_candidate_after (env : CleanupEnv) (item : MediaRecord)
    (hupd : env.updateOk item.id = true) :
    isReclaimCandidate (cleanupProcessItem env item).1 = false := by
  by_cases hc : isReclaimCandidate item = true
  · simp only [cleanupProcessItem, hc, if_true, hupd]
    cases hsp : item.serverPath with
    | none => simp [isReclaimCandidate, hsp]
    | some sp => simp [isReclaimCandidate, hsp]
  · have hc' : isReclaimCandidate item = false := Bool.eq_false_iff.mpr hc
    simp only [cleanupProcessItem, hc', Bool.false_eq_true, if_false]

theorem cleanupProcessItem_cleaned_zero_of_not_candidate (env : CleanupEnv)
    (item : MediaRecord) (h : isReclaimCandidate item = false) :
    (cleanupProcessItem env item).2.1 = 0 := by
  simp only [cleanupProcessItem, h, Bool.false_eq_true, if_false]

/-- Claim C8 amended: a record is a reclaim candidate iff its `serverPath`
is non-empty **after trimming whitespace** and its `imageData` length exceeds
1000 characters; and, provided every store update succeeds and generated
thumbnails are non-empty data URLs, running the cleanup twice in a row yields
`cleanedCount = 0` on the second run, with every previously-candidate record
left with empty `imageData` and non-empty `thumbnailData`. -/
theorem cleanupDatabaseStorage_idempotent (env : CleanupEnv) (records : List MediaRecord)
    (hupd : ∀ id, env.updateOk id = true)
    (hgen : ∀ s t, env.thumbGen s = some t → t ≠ "") :
    (∀ item : MediaRecord, isReclaimCandidate item = true ↔
        ((∃ sp, item.serverPath = some sp ∧ jsTrim sp ≠ "") ∧
          item.imageData.length > 1000)) ∧
    (cleanupDatabaseStorage env (cleanupDatabaseStorage env records).records).cleanedCount
        = 0 ∧
    (∀ (i : Nat) (item : MediaRecord), records[i]? = some item →
      isReclaimCandidate item = true →
      ∃ item' : MediaRecord,
        (cleanupDatabaseStorage env records).records[i]? = some item' ∧
        item'.imageData = "" ∧ item'.thumbnailData ≠ "") := by
  refine ⟨?_, ?_, ?_⟩
  · intro item
    constructor
    · intro h
      unfold isReclaimCandidate at h
      cases hsp : item.serverPath with
      | none => rw [hsp] at h; exact Bool.noConfusion h
      | some sp =>
        rw [hsp] at h
        simp only [Bool.and_eq_true, bne_iff_ne, decide_eq_true_eq] at h
        exact ⟨⟨sp, rfl, h.1.1.2⟩, h.2⟩
    · rintro ⟨⟨sp, hsp, htrim⟩, hlen⟩
      unfold isReclaimCandidate
      rw [hsp]
      have hsp0 : sp ≠ "" := fun hc => htrim (by rw [hc]; rfl)
      have hdata : item.imageData ≠ "" := by
        intro hc
        rw [hc] at hlen
        simp at hlen
      simp only [Bool.and_eq_true, bne_iff_ne, decide_eq_true_eq]
      exact ⟨⟨⟨hsp0, htrim⟩, hdata⟩, hlen⟩
  · apply List.sum_eq_zero
    intro x hx
    simp only [cleanupDatabaseStorage, List.mem_map] at hx
    obtain ⟨item', hmem', hx'⟩ := hx
    obtain ⟨item, _, hitem⟩ := hmem'
    rw [← hx']
    apply cleanupProcessItem_cleaned_zero_of_not_candidate
    rw [← hitem]
    exact cleanupProcessItem_not_candidate_after env item (hupd item.id)
  · intro i item hi hcand
    refine ⟨(cleanupProcessItem env item).1, ?_, ?_, ?_⟩
    · simp only [cleanupDatabaseStorage]
      rw [List.getElem?_map, hi]
      rfl
    · simp only [cleanupProcessItem, hcand, if_true, hupd item.id]
    · simp only [cleanupProcessItem, hcand, if_true, hupd item.id]
      by_cases hthumb : item.thumbnailData = "" ∨ item.thumbnailData = item.imageData
      · rw [if_pos hthumb]
        show createSmallThumbnailFromData env.thumbGen item.imageData ≠ ""
        unfold createSmallThumbnailFromData
        cases hg : env.thumbGen item.imageData with
        | some t => exact hgen item.imageData t hg
        | none => exact isReclaimCandidate_imageData_ne item hcand
      · rw [if_neg hthumb]
        show item.thumbnailData ≠ ""
        exact fun hc => hthumb (Or.inl hc)

def c8wEnv : CleanupEnv := { thumbGen := fun _ => some "data:image/jpeg;base64,TT",
                             updateOk := fun _ => true }

def c8wRecords : List MediaRecord :=
  [{ id := 6, title := "w8", imageData := bigImageData,
     serverPath := some "images/2025-07-23/c.png", thumbnailData := "" }]

theorem cleanupDatabaseStorage_idempotent_witness :
    (∀ item : MediaRecord, isReclaimCandidate item = true ↔
        ((∃ sp, item.serverPath = some sp ∧ jsTrim sp ≠ "") ∧
          item.imageData.length > 1000)) ∧
    (cleanupDatabaseStorage c8wEnv
        (cleanupDatabaseStorage c8wEnv c8wRecords).records).cleanedCount = 0 ∧
    (∀ (i : Nat) (item : MediaRecord), c8wRecords[i]? = some item →
      isReclaimCandidate item = true →
      ∃ item' : MediaRecord,
        (cleanupDatabaseStorage c8wEnv c8wRecords).records[i]? = some item' ∧
        item'.imageData = "" ∧ item'.thumbnailData ≠ "") :=
  cleanupDatabaseStorage_idempotent c8wEnv c8wRecords (fun _ => rfl)
    (fun s t h => by
      simp only [c8wEnv] at h
      intro hc
      rw [hc] at h
      exact Option.noConfusion h (fun he => String.noConfusion he (fun hd => by simp at hd)))

/-! ### MetadataInterpreter, ChatGPT variant: `extractChatGPTInfo`
(src/js/mediaProcessor.js)

`JSON.parse` is a JavaScript builtin; it is modeled here for the fragment the
metadata payloads use: objects, arrays, strings with the common escapes,
booleans, `null`, and integer numbers.  Inputs outside this fragment make the
model parser fail, which the interpreter treats like a thrown `JSON.parse`
(the same catch branch). -/

inductive JVal where
  | jnull
  | jbool (b : Bool)
  | jnum (n : Int)
  | jstr (s : String)
  | jarr (elems : List JVal)
  | jobj (fields : List (String × JVal))

def skipWs : List Char → List Char
  | [] => []
  | c :: cs => if c = ' ' ∨ c = '\t' ∨ c = '\n' ∨ c = '\r' then skipWs cs else c :: cs

/-- Body of a JSON string after the opening quote: returns the decoded
characters and the remainder after the closing quote. -/
def parseStringChars (fuel : Nat) (cs : List Char) : Option (List Char × List Char) :=
  match fuel, cs with
  | 0, _ => none
  | _ + 1, [] => none
  | fuel + 1, c :: cs =>
    if c = '"' then some ([], cs)
    else if c = '\\' then
      match cs with
      | [] => none
      | e :: cs1 =>
        let esc : Option Char :=
          if e = '"' then some '"'
          else if e = '\\' then some '\\'
          else if e = '/' then some '/'
          else if e = 'n' then some '\n'
          else if e = 't' then some '\t'
          else if e = 'r' then some '\r'
          else if e = 'b' then some (Char.ofNat 8)
          else if e = 'f' then some (Char.ofNat 12)
          else none
        match esc with
        | some ch =>
          match parseStringChars fuel cs1 with
          | some (chars, rem) => some (ch :: chars, rem)
          | none => none
        | none => none
    else
      match parseStringChars fuel cs with
      | some (chars, rem) => some (c :: chars, rem)
      | none => none

/-- An unsigned JSON integer. -/
def parseNatNum (cs : List Char) : Option (Nat × List Char) :=
  let ds := cs.takeWhile Char.isDigit
  if ds.isEmpty then none
  else some (ds.foldl (fun n c => n * 10 + (c.toNat - 48)) 0, cs.drop ds.length)

mutual

def parseValue (fuel : Nat) (cs : List Char) : Option (JVal × List Char) :=
  match fuel with
  | 0 => none
  | fuel + 1 =>
    match skipWs cs with
    | [] => none
    | c :: rest =>
      if c = '"' then
        match parseStringChars fuel rest with
        | some (chars, rem) => some (.jstr (String.mk chars), rem)
        | none => none
      else if c = '\x7b' then
        match parseObjFields fuel rest with
        | some (fields, rem) => some (.jobj fields, rem)
        | none => none
      else if c = '[' then
        match parseArrElems fuel rest with
        | some (elems, rem) => some (.jarr elems, rem)
        | none => none
      else if c = 't' then
        match rest with
        | 'r' :: 'u' :: 'e' :: rem => some (.jbool true, rem)
        | _ => none
      else if c = 'f' then
        match rest with
        | 'a' :: 'l' :: 's' :: 'e' :: rem => some (.jbool false, rem)
        | _ => none
      else if c = 'n' then
        match rest with
        | 'u' :: 'l' :: 'l' :: rem => some (.jnull, rem)
        | _ => none
      else if c = '-' then
        match parseNatNum rest with
        | some (n, rem) => some (.jnum (-(n : Int)), rem)
        | none => none
      else if c.isDigit then
        match parseNatNum (c :: rest) with
        | some (n, rem) => some (.jnum (n : Int), rem)
        | none => none
      else none

def parseObjFields (fuel : Nat) (cs : List Char) : Option (List (String × JVal) × List Char) :=
  match fuel with
  | 0 => none
  | fuel + 1 =>
    match skipWs cs with
    | '\x7d' :: rem => some ([], rem)
    | '"' :: rest =>
      match parseStringChars fuel rest with
      | some (keyChars, rem1) =>
        match skipWs rem1 with
        | ':' :: rem2 =>
          match parseValue fuel rem2 with
          | some (v, rem3) =>
            match skipWs rem3 with
            | ',' :: rem4 =>
              match parseObjFields fuel rem4 with
              | some ([], _) => none
              | some (fields, rem5) => some ((String.mk keyChars, v) :: fields, rem5)
              | none => none
            | '\x7d' :: rem4 => some ([(String.mk keyChars, v)], rem4)
            | _ => none
          | none => none
        | _ => none
      | none => none
    | _ => none

def parseArrElems (fuel : Nat) (cs : List Char) : Option (List JVal × List Char) :=
  match fuel with
  | 0 => none
  | fuel + 1 =>
    match skipWs cs with
    | ']' :: rem => some ([], rem)
    | _ =>
      match parseValue fuel cs with
      | some (v, rem1) =>
        match skipWs rem1 with
        | ',' :: rem2 =>
          match parseArrElems fuel rem2 with
          | some ([], _) => none
          | some (elems, rem3) => some (v :: elems, rem3)
          | none => none
        | ']' :: rem2 => some ([v], rem2)
        | _ => none
      | none => none

end

/-- Model of `JSON.parse`, restricted to the fragment described above:
`none` corresponds to `JSON.parse` throwing. -/
def jsonParse (s : String) : Option JVal :=
  match parseValue (s.length + 1) s.data with
  | some (v, rem) => if skipWs rem = [] then some v else none
  | none => none

/-- The decoded text-chunk map handed to the interpreters (string keys and
values, as produced by `TextDecoder`). -/
abbrev TextChunks := List (String × String)

def getChunk (chunks : TextChunks) (k : String) : Option String :=
  (chunks.find? (fun p => p.1 == k)).map (fun p => p.2)

/-- JavaScript property access `v.k`: defined for objects, `undefined`
(`none`) for other non-null values. -/
def jvField (v : JVal) (k : String) : Option JVal :=
  match v with
  | .jobj fields => (fields.find? (fun p => p.1 == k)).map (fun p => p.2)
  | _ => none

/-- JavaScript truthiness of a possibly-`undefined` value. -/
def jvTruthy : Option JVal → Bool
  | none => false
  | some .jnull => false
  | some (.jbool b) => b
  | some (.jnum n) => n != 0
  | some (.jstr s) => s != ""
  | some (.jarr _) => true
  | some (.jobj _) => true

/-- Template-literal interpolation of the values this model handles. -/
def jvTemplate : Option JVal → String
  | some (.jstr s) => s
  | some (.jbool true) => "true"
  | some (.jbool false) => "false"
  | some .jnull => "null"
  | some (.jnum n) => toString n
  | some (.jarr _) => ""
  | some (.jobj _) => "[object Object]"
  | none => "undefined"

/-- Model of `extractChatGPTInfo`: parse the `prompt` chunk as JSON, combine
the `prompt`/`internal_prompt` blocks (trimmed), take `model` from `tool`,
build the notes lines for whichever optional fields are present, and set the
fixed tags; a `JSON.parse` throw — including the property access on a parsed
`null` — degrades to a note line and shorter tags. -/
def extractChatGPTInfo (chunks : TextChunks) : AIInfo :=
  let base : AIInfo := { title := "", prompt := "", model := "", tags := "", notes := "" }
  match getChunk chunks "prompt" with
  | none => base
  | some promptChunk =>
    if promptChunk = "" then base
    else
      match jsonParse promptChunk with
      | none =>
        { base with
            notes := base.notes ++ "🤖 ChatGPT data found but could not parse JSON\n"
            tags := "ChatGPT,AI-Generated" }
      | some .jnull =>
        { base with
            notes := base.notes ++ "🤖 ChatGPT data found but could not parse JSON\n"
            tags := "ChatGPT,AI-Generated" }
      | some chatGPTData =>
        let promptField := jvField chatGPTData "prompt"
        let internalField := jvField chatGPTData "internal_prompt"
        let combinedPrompt :=
          (if jvTruthy promptField then
            "USER PROMPT:\n" ++ jvTemplate promptField ++ "\n\n" else "")
          ++ (if jvTruthy internalField then
            "INTERNAL PROMPT:\n" ++ jvTemplate internalField else "")
        let toolField := jvField chatGPTData "tool"
        let dateField := jvField chatGPTData "date_generated"
        let fnField := jvField chatGPTData "filename"
        let styleField := jvField chatGPTData "style"
        let arField := jvField chatGPTData "aspect_ratio"
        let resField := jvField chatGPTData "resolution"
        let fsField := jvField chatGPTData "file_size_mb"
        let srcField := jvField chatGPTData "source_image"
        { base with
            prompt := jsTrim combinedPrompt
            model := if jvTruthy toolField then jvTemplate toolField else ""
            notes := base.notes ++ "🤖 ChatGPT Image Generation\n"
              ++ "📅 Generated: "
              ++ (if jvTruthy dateField then jvTemplate dateField else "Unknown") ++ "\n"
              ++ (if jvTruthy fnField then
                    "📄 Original filename: " ++ jvTemplate fnField ++ "\n" else "")
              ++ (if jvTruthy styleField then
                    "🎨 Style: " ++ jvTemplate styleField ++ "\n" else "")
              ++ (if jvTruthy arField then
                    "📐 Aspect ratio: " ++ jvTemplate arField ++ "\n" else "")
              ++ (if jvTruthy resField then
                    "🔍 Resolution: " ++ jvTemplate resField ++ "\n" else "")
              ++ (if jvTruthy fsField then
                    "💾 File size: " ++ jvTemplate fsField ++ " MB\n" else "")
              ++ (if jvTruthy srcField then
                    "🖼️ Source image: " ++ jvTemplate srcField ++ "\n" else "")
            tags := "ChatGPT,AI-Generated,Image-Gen" }

def c9Chunks : TextChunks :=
  [("prompt", "\x7b\"prompt\":\"A\",\"internal_prompt\":\"B\"\x7d")]

/-- Claim C9: for the ChatGPT interpreter, a chunk map whose `prompt` entry
is the JSON text `{"prompt":"A","internal_prompt":"B"}` produces an `AIInfo`
whose `prompt` is exactly the trimmed concatenation
`"USER PROMPT:\nA\n\nINTERNAL PROMPT:\nB"`. -/
theorem extractChatGPTInfo_combinedPrompt :
    (extractChatGPTInfo c9Chunks).prompt = "USER PROMPT:\nA\n\nINTERNAL PROMPT:\nB" := by
  decide

/-! ### MetadataStore coordinate handling: `addMedia` / `updateMedia`
(src/js/serverDatabase.js) -/

structure ThumbnailPosition where
  x : Int
  y : Int
deriving DecidableEq

/-- JavaScript `Math.min`. -/
def jsMinInt (a b : Int) : Int := if a ≤ b then a else b

/-- JavaScript `v || d` on a number that may be absent (`?.` chain giving
`undefined`): both `undefined` and 0 are falsy and yield the default. -/
def jsOrNum (v : Option Int) (d : Int) : Int :=
  match v with
  | some x => if x = 0 then d else x
  | none => d

/-- Clamped default `Math.max(0, Math.min(100, mediaData.thumbnailPosition?.x || 50))`: the
x-coordinate `addMedia` stores. -/
def addMediaThumbX (pos : Option ThumbnailPosition) : Int :=
  jsMaxInt 0 (jsMinInt 100 (jsOrNum (pos.map (fun p => p.x)) 50))

/-- The y-coordinate `addMedia` stores (default 25, clamped to 0..100). -/
def addMediaThumbY (pos : Option ThumbnailPosition) : Int :=
  jsMaxInt 0 (jsMinInt 100 (jsOrNum (pos.map (fun p => p.y)) 25))

/-- Update default `value.x || 50`: the x-coordinate `updateMedia` stores — no clamping. -/
def updateMediaThumbX (pos : ThumbnailPosition) : Int := jsOrNum (some pos.x) 50

/-- Update default `value.y || 25`: the y-coordinate `updateMedia` stores — no clamping. -/
def updateMediaThumbY (pos : ThumbnailPosition) : Int := jsOrNum (some pos.y) 25

theorem jsMaxInt_clamp_bounds (v : Int) :
    0 ≤ jsMaxInt 0 (jsMinInt 100 v) ∧ jsMaxInt 0 (jsMinInt 100 v) ≤ 100 := by
  unfold jsMaxInt jsMinInt
  split <;> split <;> omega

/-- Claim C10: a `thumbnailPosition` coordinate equal to 0 can never be
persisted — both `addMedia` and `updateMedia` replace `x = 0` by the default
50 and `y = 0` by the default 25 through the falsy-coalescing `|| default`;
moreover `addMedia` clamps the stored coordinates into `[0, 100]` while
`updateMedia` stores any non-zero coordinate unchanged, out-of-range values
included. -/
theorem thumbnailPosition_zero_defaults_and_clamping :
    (∀ pos : ThumbnailPosition, pos.x = 0 → updateMediaThumbX pos = 50) ∧
    (∀ pos : ThumbnailPosition, pos.y = 0 → updateMediaThumbY pos = 25) ∧
    (∀ pos : ThumbnailPosition, pos.x = 0 → addMediaThumbX (some pos) = 50) ∧
    (∀ pos : ThumbnailPosition, pos.y = 0 → addMediaThumbY (some pos) = 25) ∧
    (∀ pos : Option ThumbnailPosition,
      0 ≤ addMediaThumbX pos ∧ addMediaThumbX pos ≤ 100 ∧
      0 ≤ addMediaThumbY pos ∧ addMediaThumbY pos ≤ 100) ∧
    (∀ pos : ThumbnailPosition, pos.x ≠ 0 → updateMediaThumbX pos = pos.x) ∧
    (∀ pos : ThumbnailPosition, pos.y ≠ 0 → updateMediaThumbY pos = pos.y) := by
  refine ⟨?_, ?_, ?_, ?_, ?_, ?_, ?_⟩
  · intro pos h
    simp [updateMediaThumbX, jsOrNum, h]
  · intro pos h
    simp [updateMediaThumbY, jsOrNum, h]
  · intro pos h
    simp [addMediaThumbX, jsOrNum, jsMaxInt, jsMinInt, h]
  · intro pos h
    simp [addMediaThumbY, jsOrNum, jsMaxInt, jsMinInt, h]
  · intro pos
    exact ⟨(jsMaxInt_clamp_bounds _).1, (jsMaxInt_clamp_bounds _).2,
           (jsMaxInt_clamp_bounds _).1, (jsMaxInt_clamp_bounds _).2⟩
  · intro pos h
    simp [updateMediaThumbX, jsOrNum, h]
  · intro pos h
    simp [updateMediaThumbY, jsOrNum, h]

theorem thumbnailPosition_zero_defaults_and_clamping_witness :
    updateMediaThumbX ⟨0, 7⟩ = 50 ∧
    updateMediaThumbY ⟨7, 0⟩ = 25 ∧
    addMediaThumbX (some ⟨0, 7⟩) = 50 ∧
    addMediaThumbY (some ⟨7, 0⟩) = 25 ∧
    (0 ≤ addMediaThumbX (some ⟨150, -3⟩) ∧ addMediaThumbX (some ⟨150, -3⟩) ≤ 100 ∧
      0 ≤ addMediaThumbY (some ⟨150, -3⟩) ∧ addMediaThumbY (some ⟨150, -3⟩) ≤ 100) ∧
    updateMediaThumbX ⟨150, -3⟩ = 150 ∧
    updateMediaThumbY ⟨150, -3⟩ = -3 :=
  ⟨thumbnailPosition_zero_defaults_and_clamping.1 ⟨0, 7⟩ rfl,
   thumbnailPosition_zero_defaults_and_clamping.2.1 ⟨7, 0⟩ rfl,
   thumbnailPosition_zero_defaults_and_clamping.2.2.1 ⟨0, 7⟩ rfl,
   thumbnailPosition_zero_defaults_and_clamping.2.2.2.1 ⟨7, 0⟩ rfl,
   thumbnailPosition_zero_defaults_and_clamping.2.2.2.2.1 (some ⟨150, -3⟩),
   thumbnailPosition_zero_defaults_and_clamping.2.2.2.2.2.1 ⟨150, -3⟩ (by decide),
   thumbnailPosition_zero_defaults_and_clamping.2.2.2.2.2.2 ⟨150, -3⟩ (by decide)⟩

end AIMediaGallery
